import Mathlib

/-!
Verification of the analysis engine of the resume-optimization backend
(`backend/app/main.py`): keyword extraction, bullet extraction, the
heuristic analyzer and the AI-analyzer orchestrator with its fallback
contract.  Python text is modelled as `String` (ASCII-faithful case
mapping), Python floats as `ℚ`, and the external LLM adapter as an
oracle returning either a parsed response or a failure.
-/

/-- Output contract of both analyzers, mirroring the pydantic model
`MatchResult` in `main.py`.  The Python float `score` is modelled as `ℚ`. -/
structure MatchResult where
  score : ℚ
  matched_skills : List String
  missing_skills : List String
  recommendations : List String
  rewritten_bullets : List String
  verification_notes : List String
deriving DecidableEq

/-- Input contract, mirroring the pydantic model `AnalyzeRequest`. -/
structure AnalyzeRequest where
  resume_text : String
  job_description : String
deriving DecidableEq

/-- Stop-word set from `main.py` (module-level constant `STOP_WORDS`),
kept as a list; only membership is ever used. -/
def STOP_WORDS : List String :=
  ["the", "and", "for", "with", "that", "this", "are", "was", "were",
   "from", "have", "has", "had", "you", "your", "their", "our", "about",
   "into", "over", "such", "using", "based", "skills", "experience",
   "job", "role", "responsibilities"]

/-- Start character class of the token regex `[A-Za-z][A-Za-z0-9+#\-.]*`. -/
def isWordStart (c : Char) : Bool :=
  ('A' ≤ c && c ≤ 'Z') || ('a' ≤ c && c ≤ 'z')

/-- Continuation character class of the token regex. -/
def isWordCont (c : Char) : Bool :=
  isWordStart c || c.isDigit || c == '+' || c == '#' || c == '-' || c == '.'

/-- Left-to-right maximal-munch scan of `re.findall(r"[A-Za-z][A-Za-z0-9+#\-.]*", s)`:
the accumulator holds the current token reversed. -/
def scanAux : List Char → List Char → List (List Char)
  | [], [] => []
  | [], a :: acc => [(a :: acc).reverse]
  | c :: rest, [] =>
      if isWordStart c then scanAux rest [c] else scanAux rest []
  | c :: rest, a :: acc =>
      if isWordCont c then scanAux rest (c :: a :: acc)
      else (a :: acc).reverse :: scanAux rest []

/-- Tokens of `text.lower()` under the regex above (the word stream that
`extract_keywords` counts).  `Char.toLower` is the ASCII case mapping,
matching Python `str.lower` on ASCII input. -/
def tokensOf (text : String) : List String :=
  (scanAux (text.data.map Char.toLower) []).map String.mk

/-- Surviving tokens: `len(w) > 2 and w not in STOP_WORDS` in `extract_keywords`. -/
def goodTokens (text : String) : List String :=
  (tokensOf text).filter (fun w => decide (2 < w.length) && !(STOP_WORDS.contains w))

/-- Distinct tokens in first-seen order: the key order of the Python
`Counter` (insertion order of a dict). -/
def firstSeenAux (seen : List String) : List String → List String
  | [] => []
  | w :: rest =>
      if seen.contains w then firstSeenAux seen rest
      else w :: firstSeenAux (w :: seen) rest

/-- Comparison used to sort keywords by descending frequency; a stable
sort with this relation reproduces `Counter.most_common` (ties broken by
first-seen order). -/
def keywordGE (good : List String) (a b : String) : Prop :=
  good.count b ≤ good.count a

instance (good : List String) : DecidableRel (keywordGE good) :=
  fun _ _ => Nat.decLe _ _

/-- Translation of `extract_keywords(text, max_keywords)` from `main.py`
(the Python default for `max_keywords` is 40; call sites pass it here
explicitly).  `insertionSort` is a stable sort, so with `keywordGE` it
reproduces the frequency-descending, first-seen-tie order of
`Counter.most_common`. -/
def extract_keywords (text : String) (max_keywords : Nat) : List String :=
  (List.insertionSort (keywordGE (goodTokens text))
      (firstSeenAux [] (goodTokens text))).take max_keywords

/-- Strict `most_common` precedence over the good-token stream: `a` comes
before `b` when `a` is strictly more frequent, or equally frequent and
first seen strictly earlier (`indexOf` is the first-occurrence position,
so this is exactly the stable tie-break of `Counter.most_common`). -/
def rankedBefore (good : List String) (a b : String) : Prop :=
  good.count b < good.count a ∨
    (good.count a = good.count b ∧ good.indexOf a < good.indexOf b)

/-- Achievement verbs of the verb-led branch of `extract_bullet_points`. -/
def bulletVerbs : List String :=
  ["developed", "created", "implemented", "designed", "built",
   "managed", "led", "improved", "optimized"]

/-- ASCII lowering of a whole string, modelling Python `str.lower`. -/
def strLower (s : String) : String := String.mk (s.data.map Char.toLower)

/-- Python `str.strip()` on a char list: whitespace dropped at both ends. -/
def trimChars (cs : List Char) : List Char :=
  ((cs.dropWhile Char.isWhitespace).reverse.dropWhile Char.isWhitespace).reverse

/-- Python `text.split("\n")` on a char list,
the current piece accumulated in reverse. -/
def splitLinesAux (cur : List Char) : List Char → List (List Char)
  | [] => [cur.reverse]
  | c :: rest =>
      if c == '\n' then cur.reverse :: splitLinesAux [] rest
      else splitLinesAux (c :: cur) rest

/-- Python `text.split("\n")`. -/
def splitLines (cs : List Char) : List (List Char) := splitLinesAux [] cs

/-- Classification of one line in `extract_bullet_points`:
marker-prefixed branch first, verb-led branch second, as in the source. -/
def lineToBullet (line : List Char) : Option (List Char) :=
  let stripped := trimChars line
  if !stripped.isEmpty &&
      (['•'].isPrefixOf stripped || ['-'].isPrefixOf stripped ||
        ['*'].isPrefixOf stripped) then
    let bullet := trimChars (stripped.dropWhile
        (fun c => c == '•' || c == '-' || c == '*'))
    if decide (10 < bullet.length) then some bullet else none
  else if !stripped.isEmpty && decide (20 < stripped.length) &&
      !((stripped.headD ' ').isUpper) && !([' '].isPrefixOf stripped) then
    if bulletVerbs.any (fun v => v.data.isPrefixOf (stripped.map Char.toLower)) then
      some stripped
    else none
  else none

/-- Translation of `extract_bullet_points(text)` from `main.py`. -/
def extract_bullet_points (text : String) : List String :=
  (((splitLines text.data).filterMap lineToBullet).take 15).map String.mk

/-- Substring test on char lists: Python `needle in hay`. -/
def containsSub : List Char → List Char → Bool
  | hay@(_ :: rest), needle => needle.isPrefixOf hay || containsSub rest needle
  | [], needle => needle.isEmpty

/-- Python `needle in hay` for strings. -/
def strIn (needle hay : String) : Bool := containsSub hay.data needle.data

/-- Python `str.title()` on ASCII text: a letter is uppercased when the
previous character is not a letter, lowercased otherwise. -/
def titleGo : Bool → List Char → List Char
  | _, [] => []
  | prevAlpha, c :: rest =>
      (if c.isAlpha then (if prevAlpha then c.toLower else c.toUpper) else c)
        :: titleGo c.isAlpha rest

/-- Python `kw.title()`. -/
def titleStr (s : String) : String := String.mk (titleGo false s.data)

/-- Python `round(q, 1)` modelled over `ℚ`: round to the nearest tenth.
(`round` on `ℚ` is the mathematical half-up rounding; the claims checked
here never sit on a half-way tenth, so the tie convention is immaterial.) -/
def round1 (q : ℚ) : ℚ := ((round (10 * q) : ℤ) : ℚ) / 10

/-- Word alternatives of the metrics regex
`\d+%|\$\d+|\d+\s*(users|clients|customers|projects)`. -/
def metricWords : List String := ["users", "clients", "customers", "projects"]

/-- Match of the metrics regex anchored at the head of `cs`.  Since the
alternation is unambiguous (digits, whitespace and the word starts are
pairwise disjoint character classes), greedy maximal-munch is exact. -/
def matchAtPos (cs : List Char) : Bool :=
  match cs with
  | [] => false
  | c :: rest =>
      (c.isDigit && ((((c :: rest).dropWhile Char.isDigit).headD ' ') == '%')) ||
      (c == '$' && (rest.headD ' ').isDigit) ||
      (c.isDigit &&
        metricWords.any (fun w => w.data.isPrefixOf
          (((c :: rest).dropWhile Char.isDigit).dropWhile Char.isWhitespace)))

/-- Python `re.search` of the metrics regex: a match starting at any position. -/
def hasNumbersB : List Char → Bool
  | [] => false
  | c :: rest => matchAtPos (c :: rest) || hasNumbersB rest

/-- Locals `jd_keywords` of `heuristic_analysis`: `extract_keywords(request.job_description)`. -/
def jd_keywords (request : AnalyzeRequest) : List String :=
  extract_keywords request.job_description 40

/-- Local `resume_keywords` of `heuristic_analysis` (a Python `set`;
only membership is used, so the underlying list suffices). -/
def resume_keywords_list (request : AnalyzeRequest) : List String :=
  extract_keywords request.resume_text 120

/-- Local `matched`: JD keywords present among the resume keywords, in JD order. -/
def matchedList (request : AnalyzeRequest) : List String :=
  (jd_keywords request).filter (fun k => (resume_keywords_list request).contains k)

/-- Local `missing`: JD keywords absent from the resume keywords, in JD order. -/
def missingList (request : AnalyzeRequest) : List String :=
  (jd_keywords request).filter (fun k => !((resume_keywords_list request).contains k))

/-- Local `coverage = len(matched) / max(len(jd_keywords), 1)`. -/
def coverage (request : AnalyzeRequest) : ℚ :=
  ((matchedList request).length : ℚ) / ((max (jd_keywords request).length 1 : ℕ) : ℚ)

/-- Local `score = round(coverage * 100, 1)`. -/
def scoreOf (request : AnalyzeRequest) : ℚ := round1 (coverage request * 100)

/-- Local `resume_bullets`. -/
def resume_bullets (request : AnalyzeRequest) : List String :=
  extract_bullet_points request.resume_text

/-- Loop body of the recommendation generation: for one bullet, the first
of the first 3 missing keywords not substring-present in the lowered
bullet yields a before/after suggestion, else nothing. -/
def recFor (missing : List String) (bullet : String) : Option String :=
  let bullet_lower := strLower bullet
  let relevant_missing := (missing.take 3).filter (fun kw => !(strIn kw bullet_lower))
  match relevant_missing with
  | [] => none
  | kw :: _ =>
      some ("Instead of: \"" ++ String.mk (bullet.data.take 80) ++
        (if decide (80 < bullet.data.length) then "..." else "") ++ "\"\n" ++
        "Use: \"" ++ String.mk (bullet.data.take 60) ++ " using " ++ titleStr kw ++
        " with measurable impact\"")

/-- Fixed fallback recommendation used when no bullet yields a suggestion. -/
def fallbackRec : String :=
  "Instead of: \"Developed application\"\n" ++
  "Use: \"Developed MERN stack application with AWS integration, improving performance by 30%\""

/-- Recommendations generated from the first 5 resume bullets. -/
def recsRaw (request : AnalyzeRequest) : List String :=
  ((resume_bullets request).take 5).filterMap (recFor (missingList request))

/-- Local `recommendations` with its non-empty fallback. -/
def recommendationsOf (request : AnalyzeRequest) : List String :=
  if recsRaw request = [] then [fallbackRec] else recsRaw request

/-- Templated rewritten bullet for one missing keyword. -/
def rewrittenFor (kw : String) : String :=
  "Example optimized bullet: Developed " ++ kw ++
  " solution that improved [metric] by [X]%, demonstrating expertise in " ++
  kw ++ " and alignment with job requirements."

/-- Fixed fallback rewritten-bullet tips. -/
def fallbackRewritten : List String :=
  ["Add quantified achievements (e.g., \x27Improved performance by 30%\x27, \x27Reduced costs by $50K\x27).",
   "Include specific technologies from the job description that you\x27ve actually used."]

/-- Local `rewritten_bullets` before its fallback: one templated bullet per
missing keyword among the first 3 (empty when nothing is missing). -/
def rewrittenRaw (request : AnalyzeRequest) : List String :=
  if missingList request = [] then []
  else ((missingList request).take 3).map rewrittenFor

/-- Local `rewritten_bullets` with its non-empty fallback. -/
def rewrittenOf (request : AnalyzeRequest) : List String :=
  if rewrittenRaw request = [] then fallbackRewritten else rewrittenRaw request

/-- Phrases checked for copied language. -/
def common_phrases : List String :=
  ["responsible for", "duties include", "required skills"]

/-- Vague words checked in the resume. -/
def vague_words : List String := ["some", "various", "several", "many", "extensive"]

/-- Warning emitted when more than 2 common phrases occur in both texts. -/
def copiedWarning : String :=
  "Warning: Your resume contains phrases that appear copied directly from the job description. " ++
  "Rewrite these sections in your own words while keeping the same meaning."

/-- Warning emitted when the resume has no quantifiable metrics. -/
def metricsWarning : String :=
  "Your resume lacks quantifiable metrics (percentages, dollar amounts, user counts). " ++
  "Add specific numbers to demonstrate impact (e.g., \x27increased revenue by 25%\x27, \x27served 10K users\x27)."

/-- Warning emitted when more than 3 vague words occur in the resume. -/
def vagueWarning : String :=
  "Replace vague terms like \x27some\x27, \x27various\x27, \x27several\x27 with specific numbers or concrete examples."

/-- Fixed fallback verification notes. -/
def fallbackNotes : List String :=
  ["Review all technical skills listed to ensure you can discuss them confidently in an interview.",
   "Verify that all dates, company names, and project details are accurate."]

/-- Local `resume_lower`. -/
def resume_lower (request : AnalyzeRequest) : String := strLower request.resume_text

/-- Local `jd_lower`. -/
def jd_lower (request : AnalyzeRequest) : String := strLower request.job_description

/-- Local `copied_count`: common phrases present in both lowered texts. -/
def copied_count (request : AnalyzeRequest) : Nat :=
  (common_phrases.filter
    (fun p => strIn p (resume_lower request) && strIn p (jd_lower request))).length

/-- Local `vague_count`: vague words substring-present in the lowered resume. -/
def vague_count (request : AnalyzeRequest) : Nat :=
  (vague_words.filter (fun w => strIn w (resume_lower request))).length

/-- Local `verification_notes` before its fallback, in the source's append order. -/
def notesRaw (request : AnalyzeRequest) : List String :=
  (if 2 < copied_count request then [copiedWarning] else []) ++
  (if hasNumbersB (resume_lower request).data then [] else [metricsWarning]) ++
  (if 3 < vague_count request then [vagueWarning] else [])

/-- Local `verification_notes` with its non-empty fallback. -/
def notesOf (request : AnalyzeRequest) : List String :=
  if notesRaw request = [] then fallbackNotes else notesRaw request

/-- Translation of `heuristic_analysis(request)` from `main.py`. -/
def heuristic_analysis (request : AnalyzeRequest) : MatchResult :=
  { score := scoreOf request,
    matched_skills := matchedList request,
    missing_skills := missingList request,
    recommendations := recommendationsOf request,
    rewritten_bullets := rewrittenOf request,
    verification_notes := notesOf request }

/-- Checked rational division, `none` exactly where Python `/` would raise
`ZeroDivisionError`. -/
def divChecked (a b : ℚ) : Option ℚ := if b = 0 then none else some (a / b)

/-- Variant of `heuristic_analysis` that surfaces the one fallible
operation of the heuristic path (the coverage division) instead of
assuming it succeeds; `none` marks a would-be exception. -/
def heuristic_analysisE (request : AnalyzeRequest) : Option MatchResult :=
  (divChecked ((matchedList request).length : ℚ)
      ((max (jd_keywords request).length 1 : ℕ) : ℚ)).map
    (fun cov =>
      { score := round1 (cov * 100),
        matched_skills := matchedList request,
        missing_skills := missingList request,
        recommendations := recommendationsOf request,
        rewritten_bullets := rewrittenOf request,
        verification_notes := notesOf request })

/-- Fields of a successfully parsed and coerced LLM response, as consumed
by `ai_analysis`.  `score_raw` is the value of `float(data.get("score", 0.0))`
before clamping; the list fields are already past the `str(x)` coercions,
which always succeed on parsed JSON values, so they range over arbitrary
string lists. -/
structure LLMParsed where
  score_raw : ℚ
  matched_keywords : List String
  missing_keywords : List String
  optimal_points : List String
  rewritten_bullets : List String
  verification_notes : List String
deriving DecidableEq

/-- Outcome of the external AI path (ChatOpenAI invocation, `json.loads`,
and the field coercions): `failure` covers any exception anywhere in the
`try` block of `ai_analysis` — transport error, non-JSON text, bad
`score` coercion; `success` carries the coerced fields. -/
inductive LLMOutcome where
  | failure : LLMOutcome
  | success : LLMParsed → LLMOutcome
deriving DecidableEq

/-- Python truthiness of `OPENAI_API_KEY` (`if not OPENAI_API_KEY`):
absent or empty means no credential. -/
def apiKeyTruthy : Option String → Bool
  | none => false
  | some s => s != ""

/-- Translation of `ai_analysis(request)` from `main.py`, parameterized by
the configured credential and by the external AI path outcome. -/
def ai_analysis (key : Option String) (llm : AnalyzeRequest → LLMOutcome)
    (request : AnalyzeRequest) : MatchResult :=
  if apiKeyTruthy key then
    match llm request with
    | LLMOutcome.failure => heuristic_analysis request
    | LLMOutcome.success d =>
        { score := round1 (max 0 (min 100 d.score_raw)),
          matched_skills := d.matched_keywords,
          missing_skills := d.missing_keywords,
          recommendations := d.optimal_points,
          rewritten_bullets := d.rewritten_bullets,
          verification_notes := d.verification_notes }
  else heuristic_analysis request

/-- Variant of `ai_analysis` built on `heuristic_analysisE`, surfacing the
only would-be exception of the whole operation. -/
def ai_analysisE (key : Option String) (llm : AnalyzeRequest → LLMOutcome)
    (request : AnalyzeRequest) : Option MatchResult :=
  if apiKeyTruthy key then
    match llm request with
    | LLMOutcome.failure => heuristic_analysisE request
    | LLMOutcome.success d =>
        some
          { score := round1 (max 0 (min 100 d.score_raw)),
            matched_skills := d.matched_keywords,
            missing_skills := d.missing_keywords,
            recommendations := d.optimal_points,
            rewritten_bullets := d.rewritten_bullets,
            verification_notes := d.verification_notes }
  else heuristic_analysisE request

/-- Request with empty resume and a stop-word-only job description. -/
def req3 : AnalyzeRequest := { resume_text := "", job_description := "the and for" }

/-- Request of the end-to-end scenario of the specification. -/
def req4 : AnalyzeRequest :=
  { resume_text := "Built REST APIs using Python and SQL.",
    job_description := "Looking for Python, FastAPI, React, and SQL experience." }

/-- Adapter outcome whose parsed response lists the same keyword as both
matched and missing. -/
def badLLM : AnalyzeRequest → LLMOutcome :=
  fun _ => LLMOutcome.success ⟨50, ["python"], ["python"], [], [], []⟩

/-- Helper: `round` on `ℚ` is monotone. -/
theorem round_mono_q (a b : ℚ) (h : a ≤ b) : round a ≤ round b := by
  rw [round_eq, round_eq]
  exact Int.floor_le_floor (by linarith)

/-- Helper: evaluation of `round1` from floor bounds. -/
theorem round1_eq_of (q : ℚ) (n : ℤ) (h1 : (n:ℚ) ≤ 10 * q + 1/2)
    (h2 : 10 * q + 1/2 < n + 1) : round1 q = (n:ℚ)/10 := by
  unfold round1
  rw [round_eq, Int.floor_eq_iff.mpr ⟨h1, h2⟩]

/-- Helper: `round1` keeps a value of `[0, 100]` inside `[0, 100]`. -/
theorem round1_bounds (q : ℚ) (h0 : 0 ≤ q) (h1 : q ≤ 100) :
    0 ≤ round1 q ∧ round1 q ≤ 100 := by
  have hlo : (0:ℤ) ≤ round (10 * q) := by
    have h2 := round_mono_q 0 (10 * q) (by linarith)
    rwa [round_zero] at h2
  have hhi : round (10 * q) ≤ 1000 := by
    have h2 := round_mono_q (10 * q) 1000 (by linarith)
    have h3 : round ((1000:ℤ):ℚ) = 1000 := @round_intCast ℚ _ _ 1000
    have h4 : ((1000:ℤ):ℚ) = (1000:ℚ) := by norm_num
    rw [h4] at h3
    rw [h3] at h2
    exact h2
  constructor
  · unfold round1
    apply div_nonneg _ (by norm_num)
    exact_mod_cast hlo
  · unfold round1
    rw [div_le_iff₀ (show (0:ℚ) < 10 by norm_num)]
    have h5 : (100:ℚ) * 10 = ((1000:ℤ):ℚ) := by norm_num
    rw [h5]
    exact_mod_cast hhi

/-- Helper: `round1` always lands on an integer number of tenths. -/
theorem round1_tenths (q : ℚ) : ∃ n : ℤ, round1 q = (n:ℚ)/10 :=
  ⟨round (10 * q), rfl⟩

/-- Helper: the denominator guard `max(len(jd_keywords), 1)` is never zero,
so the exception-aware heuristic variant always succeeds and agrees with
`heuristic_analysis`. -/
theorem heuristicE_eq (request : AnalyzeRequest) :
    heuristic_analysisE request = some (heuristic_analysis request) := by
  unfold heuristic_analysisE divChecked
  have h1 : 0 < max (jd_keywords request).length 1 := by omega
  have hne : (((max (jd_keywords request).length 1 : ℕ) : ℚ)) ≠ 0 :=
    Nat.cast_ne_zero.mpr h1.ne'
  rw [if_neg hne]
  rfl

/-- Helper: score bounds and tenth-precision for the heuristic path. -/
theorem heuristic_score_ok (request : AnalyzeRequest) :
    0 ≤ (heuristic_analysis request).score ∧
    (heuristic_analysis request).score ≤ 100 ∧
    ∃ n : ℤ, (heuristic_analysis request).score = (n:ℚ)/10 := by
  have hm0 : (matchedList request).length ≤ (jd_keywords request).length := by
    unfold matchedList
    exact List.length_filter_le _ _
  have hd : (0:ℚ) < ((max (jd_keywords request).length 1 : ℕ) : ℚ) := by
    have h2 : 0 < max (jd_keywords request).length 1 := by omega
    exact_mod_cast h2
  have hcov0 : 0 ≤ coverage request * 100 := by
    unfold coverage
    positivity
  have hcov1 : coverage request * 100 ≤ 100 := by
    have h1 : coverage request ≤ 1 := by
      unfold coverage
      rw [div_le_one hd]
      exact_mod_cast le_trans hm0 (le_max_left _ _)
    linarith
  have hb := round1_bounds (coverage request * 100) hcov0 hcov1
  exact ⟨hb.1, hb.2, round1_tenths _⟩

/-- Helper: members of `firstSeenAux seen l` come from `l`. -/
theorem firstSeenAux_subset (l : List String) (seen : List String) (a : String)
    (h : a ∈ firstSeenAux seen l) : a ∈ l := by
  induction l generalizing seen with
  | nil => simp [firstSeenAux] at h
  | cons x xs ih =>
      rw [firstSeenAux] at h
      split at h
      · exact List.mem_cons_of_mem _ (ih _ h)
      · rcases List.mem_cons.mp h with h | h
        · exact h ▸ List.mem_cons_self _ _
        · exact List.mem_cons_of_mem _ (ih _ h)

/-- Helper: the score of the end-to-end scenario request is 16.7
(1 matched JD keyword of 6). -/
theorem req4_score : (heuristic_analysis req4).score = (167:ℚ)/10 := by
  have h1 : (matchedList req4).length = 1 := rfl
  have h4 : (max (jd_keywords req4).length 1 : ℕ) = 6 := rfl
  show round1 (coverage req4 * 100) = (167:ℚ)/10
  unfold coverage
  rw [h1, h4]
  have h3 := round1_eq_of (((1:ℕ):ℚ) / ((6:ℕ):ℚ) * 100) 167 (by norm_num) (by norm_num)
  rw [h3]
  norm_num

/-- C1: with no configured API key (absent, or empty hence falsy), or with
the AI path failing anywhere (adapter exception, non-JSON text, bad
coercion), `ai_analysis` returns exactly the `heuristic_analysis` result
for the same request, masking the failure from the caller. -/
theorem ai_analysis_fallback_eq_heuristic (key : Option String)
    (llm : AnalyzeRequest → LLMOutcome) (request : AnalyzeRequest)
    (h : apiKeyTruthy key = false ∨ llm request = LLMOutcome.failure) :
    ai_analysis key llm request = heuristic_analysis request := by
  unfold ai_analysis
  rcases h with h | h
  · simp [h]
  · by_cases hk : apiKeyTruthy key = true
    · simp [hk, h]
    · simp [hk]

/-- Witness for C1: no key and a failing adapter on a concrete request. -/
theorem ai_analysis_fallback_eq_heuristic_witness :
    ai_analysis none (fun _ => LLMOutcome.failure) req4 = heuristic_analysis req4 :=
  ai_analysis_fallback_eq_heuristic none (fun _ => LLMOutcome.failure) req4 (Or.inl rfl)

/-- C2 (amended): every `heuristic_analysis` result has disjoint
`matched_skills` and `missing_skills` (the two lists filter the JD
keywords by complementary membership tests); the `ai_analysis` paths that
delegate to the heuristic analyzer inherit this, but the AI-success path
copies the parsed LLM lists without enforcing disjointness. -/
theorem heuristic_matched_missing_disjoint (request : AnalyzeRequest) :
    List.Disjoint (heuristic_analysis request).matched_skills
      (heuristic_analysis request).missing_skills := by
  intro a ha hb
  have ha' : a ∈ matchedList request := ha
  have hb' : a ∈ missingList request := hb
  have h1 := (List.mem_filter.mp ha').2
  have h2 := (List.mem_filter.mp hb').2
  rw [h1] at h2
  simp at h2

/-- Witness for C2's amended theorem at a concrete request. -/
theorem heuristic_matched_missing_disjoint_witness :
    List.Disjoint (heuristic_analysis req4).matched_skills
      (heuristic_analysis req4).missing_skills :=
  heuristic_matched_missing_disjoint req4

/-- C2 counterexample: on the AI-success path the parsed LLM lists pass
through unchecked, so a response naming "python" both matched and missing
yields a result whose skill lists are not disjoint. -/
theorem ai_success_disjoint_violation :
    "python" ∈ (ai_analysis (some "k") badLLM req4).matched_skills ∧
    "python" ∈ (ai_analysis (some "k") badLLM req4).missing_skills ∧
    ¬ List.Disjoint (ai_analysis (some "k") badLLM req4).matched_skills
        (ai_analysis (some "k") badLLM req4).missing_skills := by
  have h1 : "python" ∈ (ai_analysis (some "k") badLLM req4).matched_skills := by decide
  have h2 : "python" ∈ (ai_analysis (some "k") badLLM req4).missing_skills := by decide
  exact ⟨h1, h2, fun hd => hd h1 h2⟩

/-- C3 counterexample: for an empty resume and a stop-word-only job
description, the `matched_skills` and `missing_skills` fields of the
heuristic result are both empty, so not every list field is non-empty. -/
theorem heuristic_fields_empty_example :
    (heuristic_analysis req3).matched_skills = [] ∧
    (heuristic_analysis req3).missing_skills = [] :=
  ⟨by decide, by decide⟩

/-- C3 (amended): the three generated list fields of every heuristic
result — `recommendations`, `rewritten_bullets`, `verification_notes` —
are non-empty thanks to their fallbacks, for every request including the
empty-resume, stop-word-only-JD one; `matched_skills` and
`missing_skills` can be empty (both are when the JD yields no keywords). -/
theorem heuristic_generated_fields_nonempty (request : AnalyzeRequest) :
    (heuristic_analysis request).recommendations ≠ [] ∧
    (heuristic_analysis request).rewritten_bullets ≠ [] ∧
    (heuristic_analysis request).verification_notes ≠ [] := by
  refine ⟨?_, ?_, ?_⟩
  · show recommendationsOf request ≠ []
    unfold recommendationsOf
    by_cases h : recsRaw request = []
    · rw [if_pos h]; decide
    · rw [if_neg h]; exact h
  · show rewrittenOf request ≠ []
    unfold rewrittenOf
    by_cases h : rewrittenRaw request = []
    · rw [if_pos h]; decide
    · rw [if_neg h]; exact h
  · show notesOf request ≠ []
    unfold notesOf
    by_cases h : notesRaw request = []
    · rw [if_pos h]; decide
    · rw [if_neg h]; exact h

/-- Witness for C3's amended theorem at the empty/stop-word request. -/
theorem heuristic_generated_fields_nonempty_witness :
    (heuristic_analysis req3).recommendations ≠ [] ∧
    (heuristic_analysis req3).rewritten_bullets ≠ [] ∧
    (heuristic_analysis req3).verification_notes ≠ [] :=
  heuristic_generated_fields_nonempty req3

/-- C4 counterexample: in the end-to-end scenario the resume's final token
is "sql." (the tokenizer keeps the sentence-final period), so "sql" is
not among the matched skills, and the score is not about 50. -/
theorem heuristic_scenario_sql_not_matched :
    "sql" ∉ (heuristic_analysis req4).matched_skills ∧
    (heuristic_analysis req4).score ≠ 50 := by
  refine ⟨by decide, ?_⟩
  rw [req4_score]
  norm_num

/-- C4 (amended): for the scenario request, `matched_skills = ["python"]`
("sql" is not matched because the resume tokenizes it as "sql."),
`missing_skills` includes "fastapi", "react" and "sql" (the JD keeps 6
keywords, "experience." among them), the score is 16.7 (1 of 6 matched),
and all list fields are non-empty. -/
theorem heuristic_scenario_result :
    (heuristic_analysis req4).matched_skills = ["python"] ∧
    (heuristic_analysis req4).missing_skills =
      ["looking", "fastapi", "react", "sql", "experience."] ∧
    "fastapi" ∈ (heuristic_analysis req4).missing_skills ∧
    "react" ∈ (heuristic_analysis req4).missing_skills ∧
    (heuristic_analysis req4).score = (167:ℚ)/10 ∧
    (heuristic_analysis req4).matched_skills ≠ [] ∧
    (heuristic_analysis req4).missing_skills ≠ [] ∧
    (heuristic_analysis req4).recommendations ≠ [] ∧
    (heuristic_analysis req4).rewritten_bullets ≠ [] ∧
    (heuristic_analysis req4).verification_notes ≠ [] :=
  ⟨by decide, by decide, by decide, by decide, req4_score,
   by decide, by decide, by decide, by decide, by decide⟩

/-- C5: for every credential, adapter outcome and request, the score of
the `ai_analysis` result — and likewise of the `heuristic_analysis`
result — lies in `[0, 100]` and is an integer number of tenths (the
heuristic path by construction from the coverage ratio, the AI-success
path by the explicit clamp and round of the coerced LLM score). -/
theorem score_bounds_and_decimal (key : Option String)
    (llm : AnalyzeRequest → LLMOutcome) (request : AnalyzeRequest) :
    (0 ≤ (ai_analysis key llm request).score ∧
      (ai_analysis key llm request).score ≤ 100 ∧
      ∃ n : ℤ, (ai_analysis key llm request).score = (n:ℚ)/10) ∧
    (0 ≤ (heuristic_analysis request).score ∧
      (heuristic_analysis request).score ≤ 100 ∧
      ∃ n : ℤ, (heuristic_analysis request).score = (n:ℚ)/10) := by
  refine ⟨?_, heuristic_score_ok request⟩
  unfold ai_analysis
  by_cases hk : apiKeyTruthy key = true
  · rw [if_pos hk]
    cases hllm : llm request with
    | failure => exact heuristic_score_ok request
    | success d =>
        have h0 : (0:ℚ) ≤ max 0 (min 100 d.score_raw) := le_max_left _ _
        have h1 : max (0:ℚ) (min 100 d.score_raw) ≤ 100 :=
          max_le (by norm_num) (min_le_left _ _)
        have hb := round1_bounds _ h0 h1
        exact ⟨hb.1, hb.2, round1_tenths _⟩
  · rw [if_neg hk]
    exact heuristic_score_ok request

/-- C6: both analyzers are total.  The exception-aware variants — in which
the heuristic path's only fallible operation, the coverage division, is
checked, and the AI path's external failure is an explicit outcome —
always return `some` of the corresponding total function's result: no
exception escapes, and empty inputs are ordinary inputs. -/
theorem analysis_total_no_exception (key : Option String)
    (llm : AnalyzeRequest → LLMOutcome) (request : AnalyzeRequest) :
    heuristic_analysisE request = some (heuristic_analysis request) ∧
    ai_analysisE key llm request = some (ai_analysis key llm request) := by
  refine ⟨heuristicE_eq request, ?_⟩
  unfold ai_analysisE ai_analysis
  by_cases hk : apiKeyTruthy key = true
  · rw [if_pos hk, if_pos hk]
    cases llm request with
    | failure => exact heuristicE_eq request
    | success d => rfl
  · rw [if_neg hk, if_neg hk]
    exact heuristicE_eq request

/-- Helper: `rankedBefore` implies the non-strict count order used by the
sort relation. -/
theorem rankedBefore_count_le (good : List String) (a b : String)
    (h : rankedBefore good a b) : good.count b ≤ good.count a := by
  rcases h with h | ⟨h, _⟩
  · exact le_of_lt h
  · exact le_of_eq h.symm

/-- Helper: inserting `x` with `orderedInsert` into a `rankedBefore`-sorted
list keeps it sorted, provided `x` was first seen earlier than every
element already present — the stability argument for one insertion. -/
theorem orderedInsert_pairwise_ranked (good : List String) (x : String)
    (l : List String) (hp : l.Pairwise (rankedBefore good))
    (hb : ∀ b ∈ l, good.indexOf x < good.indexOf b) :
    (List.orderedInsert (keywordGE good) x l).Pairwise (rankedBefore good) := by
  induction l with
  | nil => simp [List.orderedInsert]
  | cons y ys ih =>
      rw [List.orderedInsert]
      by_cases hr : keywordGE good x y
      · rw [if_pos hr]
        rw [List.pairwise_cons]
        refine ⟨?_, hp⟩
        intro z hz
        have hry : good.count y ≤ good.count x := hr
        have hcz : good.count z ≤ good.count x := by
          rcases List.mem_cons.mp hz with hz | hz
          · rw [hz]
            exact hry
          · exact le_trans
              (rankedBefore_count_le good y z ((List.pairwise_cons.mp hp).1 z hz))
              hry
        rcases lt_or_eq_of_le hcz with hlt | heq
        · exact Or.inl hlt
        · exact Or.inr ⟨heq.symm, hb z hz⟩
      · rw [if_neg hr]
        rw [List.pairwise_cons] at hp ⊢
        refine ⟨?_, ih hp.2 (fun b hbm => hb b (List.mem_cons_of_mem _ hbm))⟩
        intro z hz
        rcases (List.mem_orderedInsert _).mp hz with hz | hz
        · rw [hz]
          have hr' : ¬ (good.count y ≤ good.count x) := hr
          exact Or.inl (not_le.mp hr')
        · exact hp.1 z hz

/-- Helper: the stable insertion sort of a list whose elements are in
strictly increasing first-seen order is `rankedBefore`-sorted: descending
frequency with ties in first-seen order. -/
theorem insertionSort_pairwise_ranked (good : List String) (l : List String)
    (hl : l.Pairwise (fun a b => good.indexOf a < good.indexOf b)) :
    (List.insertionSort (keywordGE good) l).Pairwise (rankedBefore good) := by
  induction l with
  | nil => simp [List.insertionSort]
  | cons x xs ih =>
      rw [List.insertionSort]
      rw [List.pairwise_cons] at hl
      apply orderedInsert_pairwise_ranked good x _ (ih hl.2)
      intro b hbm
      exact hl.1 b ((List.perm_insertionSort _ _).subset hbm)

/-- Helper: everything `firstSeenAux seen l` emits is outside `seen`. -/
theorem firstSeenAux_not_seen (l : List String) (seen : List String) (a : String)
    (h : a ∈ firstSeenAux seen l) : a ∉ seen := by
  induction l generalizing seen with
  | nil => simp [firstSeenAux] at h
  | cons w rest ih =>
      rw [firstSeenAux] at h
      by_cases hw : seen.contains w = true
      · rw [if_pos hw] at h
        exact ih _ h
      · rw [if_neg hw] at h
        rcases List.mem_cons.mp h with h | h
        · intro hmem
          rw [h] at hmem
          exact hw (List.elem_iff.mpr hmem)
        · intro hmem
          exact (ih _ h) (List.mem_cons_of_mem _ hmem)

/-- Helper: `firstSeenAux seen l` lists its elements in strictly
increasing first-occurrence order over `l`. -/
theorem firstSeenAux_pairwise_idx (l : List String) (seen : List String) :
    (firstSeenAux seen l).Pairwise (fun a b => l.indexOf a < l.indexOf b) := by
  induction l generalizing seen with
  | nil => simp [firstSeenAux]
  | cons w rest ih =>
      rw [firstSeenAux]
      by_cases hw : seen.contains w = true
      · rw [if_pos hw]
        apply List.Pairwise.imp_of_mem ?_ (ih seen)
        intro a b ha hb hab
        have haw : w ≠ a := by
          intro he
          exact (firstSeenAux_not_seen _ _ _ ha) (by rw [← he]; exact List.elem_iff.mp hw)
        have hbw : w ≠ b := by
          intro he
          exact (firstSeenAux_not_seen _ _ _ hb) (by rw [← he]; exact List.elem_iff.mp hw)
        rw [List.indexOf_cons_ne _ haw, List.indexOf_cons_ne _ hbw]
        omega
      · rw [if_neg hw]
        rw [List.pairwise_cons]
        constructor
        · intro b hb
          have hbw : w ≠ b := by
            intro he
            exact (firstSeenAux_not_seen _ _ _ hb) (by rw [← he]; exact List.mem_cons_self _ _)
          rw [List.indexOf_cons_self, List.indexOf_cons_ne _ hbw]
          omega
        · apply List.Pairwise.imp_of_mem ?_ (ih (w :: seen))
          intro a b ha hb hab
          have haw : w ≠ a := by
            intro he
            exact (firstSeenAux_not_seen _ _ _ ha) (by rw [← he]; exact List.mem_cons_self _ _)
          have hbw : w ≠ b := by
            intro he
            exact (firstSeenAux_not_seen _ _ _ hb) (by rw [← he]; exact List.mem_cons_self _ _)
          rw [List.indexOf_cons_ne _ haw, List.indexOf_cons_ne _ hbw]
          omega

/-- C7: `extract_keywords` lower-cases and tokenizes the text, keeps only
tokens of length above 2 outside the stop-word set, and returns at most
`max_keywords` of them ordered by strictly descending frequency with ties
in strictly increasing first-occurrence order (`rankedBefore`, the order
of `Counter.most_common`); the first two example evaluations are the
claim's, and the last two exercise frequency ties ("bbb"/"aaa" and
"ccc"/"aaa" have equal counts and appear in first-seen order, not in
input-suffix or alphabetical order). -/
theorem extract_keywords_spec :
    extract_keywords "the and for" 10 = [] ∧
    extract_keywords "Python Python SQL" 5 = ["python", "sql"] ∧
    extract_keywords "bbb bbb aaa aaa ccc" 40 = ["bbb", "aaa", "ccc"] ∧
    extract_keywords "ddd ccc bbb aaa ccc bbb aaa bbb" 40 =
      ["bbb", "ccc", "aaa", "ddd"] ∧
    ∀ (text : String) (n : Nat),
      (extract_keywords text n).length ≤ n ∧
      (∀ w ∈ extract_keywords text n, 2 < w.length ∧ w ∉ STOP_WORDS) ∧
      List.Pairwise (rankedBefore (goodTokens text)) (extract_keywords text n) := by
  refine ⟨by decide, by decide, by decide, by decide, fun text n => ⟨?_, ?_, ?_⟩⟩
  · unfold extract_keywords
    rw [List.length_take]
    exact min_le_left _ _
  · intro w hw
    unfold extract_keywords at hw
    have h1 := List.mem_of_mem_take hw
    have h1' := (List.perm_insertionSort _ _).subset h1
    have h2 := firstSeenAux_subset _ _ _ h1'
    have h3 := (List.mem_filter.mp h2).2
    rw [Bool.and_eq_true] at h3
    refine ⟨of_decide_eq_true h3.1, fun hmem => ?_⟩
    have h6 : STOP_WORDS.contains w = true := List.elem_iff.mpr hmem
    have h7 := h3.2
    rw [h6] at h7
    simp at h7
  · unfold extract_keywords
    apply List.Pairwise.sublist (List.take_sublist _ _)
    exact insertionSort_pairwise_ranked (goodTokens text) _
      (firstSeenAux_pairwise_idx (goodTokens text) [])

/-- Witness for C7's universally quantified part: the membership rule
applied at a concrete keyword of a concrete extraction. -/
theorem extract_keywords_spec_witness :
    2 < "python".length ∧ "python" ∉ STOP_WORDS :=
  (extract_keywords_spec.2.2.2.2 "Python Python SQL" 5).2.1 "python" (by decide)

/-- C8: `extract_bullet_points` classifies each line and returns the
resulting bullets in line order, truncated to the first 15: it equals the
first 15 elements of the per-line bullet stream of `lineToBullet` over
the split lines.  A stripped marker-prefixed line keeps the marker-free
remainder exactly when its length exceeds 10, and a stripped verb-led
line (non-empty, no marker, length above 20, first character not
uppercase, not starting with a space) is kept exactly when one of the
achievement verbs prefixes its lowering.  The claim's marker example
holds, and the second example exercises a kept marker bullet, a dropped
short marker bullet, a kept lowercase verb-led line and a dropped
uppercase line, in line order. -/
theorem extract_bullet_points_spec :
    extract_bullet_points "- Implemented caching layer for API\nShort line" =
      ["Implemented caching layer for API"] ∧
    extract_bullet_points
        "• Developed x with 8 users\n- short\nimplemented a caching layer for the api\nBuilt large systems here" =
      ["Developed x with 8 users", "implemented a caching layer for the api"] ∧
    (∀ text : String,
      (extract_bullet_points text).length ≤ 15 ∧
      extract_bullet_points text =
        (((splitLines text.data).filterMap lineToBullet).map String.mk).take 15) ∧
    ∀ line : List Char,
      (trimChars line ≠ [] →
        (['•'].isPrefixOf (trimChars line) ∨ ['-'].isPrefixOf (trimChars line) ∨
          ['*'].isPrefixOf (trimChars line)) →
        (10 < (trimChars ((trimChars line).dropWhile
            (fun c => c == '•' || c == '-' || c == '*'))).length →
          lineToBullet line = some (trimChars ((trimChars line).dropWhile
            (fun c => c == '•' || c == '-' || c == '*')))) ∧
        ((trimChars ((trimChars line).dropWhile
            (fun c => c == '•' || c == '-' || c == '*'))).length ≤ 10 →
          lineToBullet line = none)) ∧
      (trimChars line ≠ [] →
        ¬ (['•'].isPrefixOf (trimChars line) ∨ ['-'].isPrefixOf (trimChars line) ∨
          ['*'].isPrefixOf (trimChars line)) →
        20 < (trimChars line).length →
        ((trimChars line).headD ' ').isUpper = false →
        [' '].isPrefixOf (trimChars line) = false →
        (bulletVerbs.any (fun v =>
            v.data.isPrefixOf ((trimChars line).map Char.toLower)) = true →
          lineToBullet line = some (trimChars line)) ∧
        (bulletVerbs.any (fun v =>
            v.data.isPrefixOf ((trimChars line).map Char.toLower)) = false →
          lineToBullet line = none)) := by
  refine ⟨by decide, by decide, fun text => ⟨?_, ?_⟩, fun line => ⟨?_, ?_⟩⟩
  · unfold extract_bullet_points
    rw [List.length_map, List.length_take]
    exact min_le_left _ _
  · unfold extract_bullet_points
    rw [List.map_take]
  · intro hs hmark
    have hne : (trimChars line).isEmpty = false := by
      cases hcs : trimChars line with
      | nil => exact absurd hcs hs
      | cons c cs => rfl
    have hm : (['•'].isPrefixOf (trimChars line) || ['-'].isPrefixOf (trimChars line) ||
        ['*'].isPrefixOf (trimChars line)) = true := by
      rcases hmark with h | h | h <;> simp [h]
    constructor
    · intro hlen
      simp only [lineToBullet, hne, hm, decide_eq_true hlen]
      simp
    · intro hlen
      simp only [lineToBullet, hne, hm, decide_eq_false (not_lt.mpr hlen)]
      simp
  · intro hs hnm h20 hup hsp
    have hne : (trimChars line).isEmpty = false := by
      cases hcs : trimChars line with
      | nil => exact absurd hcs hs
      | cons c cs => rfl
    rw [not_or, not_or] at hnm
    have hm1 : ['•'].isPrefixOf (trimChars line) = false :=
      Bool.not_eq_true _ ▸ eq_false_of_ne_true (fun h => hnm.1 h)
    have hm2 : ['-'].isPrefixOf (trimChars line) = false :=
      Bool.not_eq_true _ ▸ eq_false_of_ne_true (fun h => hnm.2.1 h)
    have hm3 : ['*'].isPrefixOf (trimChars line) = false :=
      Bool.not_eq_true _ ▸ eq_false_of_ne_true (fun h => hnm.2.2 h)
    constructor
    · intro hverb
      simp only [lineToBullet, hne, hm1, hm2, hm3, hup, hsp, decide_eq_true h20, hverb]
      simp
    · intro hverb
      simp only [lineToBullet, hne, hm1, hm2, hm3, hup, hsp, decide_eq_true h20, hverb]
      simp

/-- Witness for C8's per-line rules: the marker rule and the verb-led
rule applied at concrete lines, every hypothesis discharged by
evaluation. -/
theorem extract_bullet_points_spec_witness :
    lineToBullet "- Implemented caching layer for API".data =
      some "Implemented caching layer for API".data ∧
    lineToBullet "implemented a caching layer for the api".data =
      some "implemented a caching layer for the api".data ∧
    lineToBullet "- short".data = none :=
  ⟨((extract_bullet_points_spec.2.2.2
      "- Implemented caching layer for API".data).1 (by decide) (by decide)).1
      (by decide),
   ((extract_bullet_points_spec.2.2.2
      "implemented a caching layer for the api".data).2 (by decide) (by decide)
      (by decide) (by decide) (by decide)).1 (by decide),
   ((extract_bullet_points_spec.2.2.2 "- short".data).1 (by decide) (by decide)).2
      (by decide)⟩

/-- C9: `heuristic_analysis` is deterministic — two requests with
identical `resume_text` and `job_description` produce identical
`MatchResult` values in every field. -/
theorem heuristic_analysis_deterministic (r1 r2 : AnalyzeRequest)
    (h1 : r1.resume_text = r2.resume_text)
    (h2 : r1.job_description = r2.job_description) :
    heuristic_analysis r1 = heuristic_analysis r2 := by
  have h : r1 = r2 := by
    cases r1
    cases r2
    simp_all
  rw [h]

/-- Witness for C9 at two syntactically distinct but equal-field requests. -/
theorem heuristic_analysis_deterministic_witness :
    heuristic_analysis req3 =
      heuristic_analysis { resume_text := "", job_description := "the and for" } :=
  heuristic_analysis_deterministic req3
    { resume_text := "", job_description := "the and for" } rfl rfl

/-- C10: when the job description yields no keywords, the division guard
`max(len(jd_keywords), 1)` makes the coverage 0/1, so the score is
exactly 0.0, both skill lists are empty, and the exception-aware variant
still succeeds (no division by zero is reachable). -/
theorem empty_jd_keywords_score_zero (request : AnalyzeRequest)
    (h : extract_keywords request.job_description 40 = []) :
    (heuristic_analysis request).score = 0 ∧
    (heuristic_analysis request).matched_skills = [] ∧
    (heuristic_analysis request).missing_skills = [] ∧
    heuristic_analysisE request = some (heuristic_analysis request) := by
  have hjd : jd_keywords request = [] := h
  have hm : matchedList request = [] := by
    unfold matchedList
    rw [hjd]
    rfl
  have hmiss : missingList request = [] := by
    unfold missingList
    rw [hjd]
    rfl
  refine ⟨?_, hm, hmiss, heuristicE_eq request⟩
  show round1 (coverage request * 100) = 0
  have hc : coverage request * 100 = 0 := by
    unfold coverage
    rw [hm, hjd]
    simp
  rw [hc]
  unfold round1
  rw [mul_zero, round_zero]
  norm_num

/-- Witness for C10 at the stop-word-only job description. -/
theorem empty_jd_keywords_score_zero_witness :
    (heuristic_analysis req3).score = 0 ∧
    (heuristic_analysis req3).matched_skills = [] ∧
    (heuristic_analysis req3).missing_skills = [] ∧
    heuristic_analysisE req3 = some (heuristic_analysis req3) :=
  empty_jd_keywords_score_zero req3 (by decide)
